import Mathlib

/-!
Shallow embedding of the bid-validation stage of prebid-server
(`exchange/bidder_validate_bids.go`): the `validatedBidder` decorator,
`removeInvalidBids`, `validateCurrency` and `validateBid`, together with
theorems settling the specification claims about them.

Modelling conventions:
* A Go `error` interface value is `Option String` (`none` = nil error,
  `some msg` = an error whose `Error()` text is `msg`).
* `float64` bid prices are only ever compared against `0.0`, so they are
  modelled as rationals; the comparison `Price <= 0.0` is exact.
* The external ISO-4217 parser `currency.ParseISO` is an explicit function
  parameter `parseISO : String → Except String String`; on success it returns
  the canonical (upper-case) code, i.e. the value of `currencyUnit.String()`,
  on failure the parse error.
* In-place mutation of the seat bid becomes explicit state passing: the
  functions return the updated seat bid next to their Go return values.
-/

/-- A Go `error` interface value: `none` models a nil error. -/
abbrev GoErr := Option String

/-- Go `strings.ToUpper`, mapping per-rune uppercasing over the string. -/
def stringsToUpper (s : String) : String :=
  ⟨s.data.map Char.toUpper⟩

/-- The inner OpenRTB bid payload (`openrtb.Bid`); only the fields the
validation core consumes are modelled. -/
structure Openrtb.Bid where
  ID : String
  ImpID : String
  Price : ℚ
  CrID : String
deriving DecidableEq, Repr

/-- The bid request (`openrtb.BidRequest`); the validation core consumes only
its `Cur` field (accepted currency codes). -/
structure Openrtb.BidRequest where
  Cur : List String
deriving DecidableEq, Repr

/-- `exchange.PBSOrtbBid`: wraps a possibly-nil pointer to the inner
`openrtb.Bid` payload (`none` models a nil `Bid` field). -/
structure PBSOrtbBid where
  Bid : Option Openrtb.Bid
deriving DecidableEq, Repr

/-- `exchange.PBSOrtbSeatBid`. Its definition is not part of the shown
fragment; modelled from the spec: "Seat Bid ... Attributes: declared currency
(string, may be empty), ordered sequence of Bid entities." The bid list holds
the (assumed non-nil) `*PBSOrtbBid` pointers. -/
structure PBSOrtbSeatBid where
  Bids : List PBSOrtbBid
  Currency : String
deriving DecidableEq, Repr

/-- `validateCurrency` from `bidder_validate_bids.go`, parameterised by the
external ISO parser. Returns `none` when the check passes, `some msg` on
failure, exactly mirroring the Go control flow. -/
def validateCurrency (parseISO : String → Except String String)
    (requestAllowedCurrencies : List String) (bidCurrency : String) : GoErr :=
  let defaultCurrency := "USD"
  let bidCurrency := if bidCurrency = "" then defaultCurrency else bidCurrency
  match parseISO bidCurrency with
  | .error cerr => some cerr
  | .ok currencyUnit =>
    let requestAllowedCurrencies :=
      if requestAllowedCurrencies.length = 0 then [defaultCurrency]
      else requestAllowedCurrencies
    let currencyAllowed :=
      requestAllowedCurrencies.any
        (fun allowedCurrency => stringsToUpper allowedCurrency = currencyUnit)
    if currencyAllowed = false then
      some ("Bid currency is not allowed. Was '" ++ currencyUnit ++
        "', wants: ['" ++ String.intercalate "', '" requestAllowedCurrencies ++ "']")
    else
      none

/-- `validateBid` from `bidder_validate_bids.go`, on the defined domain of a
non-nil `*PBSOrtbBid`. Go's `(bool, error)` return is `Bool × GoErr`; every
`false` result carries a non-nil error. -/
def validateBid (bid : PBSOrtbBid) : Bool × GoErr :=
  match bid.Bid with
  | none => (false, some "Empty bid object submitted.")
  | some b =>
    if b.ID = "" then
      (false, some "Bid missing required field 'id'")
    else if b.ImpID = "" then
      (false, some ("Bid \"" ++ b.ID ++ "\" missing required field 'impid'"))
    else if b.Price ≤ 0 then
      (false, some ("Bid \"" ++ b.ID ++ "\" does not contain a positive 'price'"))
    else if b.CrID = "" then
      (false, some ("Bid \"" ++ b.ID ++ "\" missing creative ID"))
    else
      (true, none)

/-- The call `validateBid(bid)` at the pointer level: the Go function receives
`bid *PBSOrtbBid` and dereferences it (`bid.Bid`) before any check, so a nil
argument has no defined result; `none` models that undefinedness. -/
def validateBidCall : Option PBSOrtbBid → Option (Bool × GoErr)
  | none => none
  | some bid => some (validateBid bid)

/-- `removeInvalidBids` from `bidder_validate_bids.go`. The in-place mutation
of `seatBid` becomes an explicit returned seat bid next to the Go `[]error`
return value; the per-bid loop is a left fold accumulating `validBids` and
`errs` exactly as the Go loop does. -/
def removeInvalidBids (parseISO : String → Except String String)
    (request : Openrtb.BidRequest) (seatBid : Option PBSOrtbSeatBid) :
    Option PBSOrtbSeatBid × List GoErr :=
  match seatBid with
  | none => (none, [])
  | some sb =>
    if sb.Bids.length = 0 then
      (some sb, [])
    else
      match validateCurrency parseISO request.Cur sb.Currency with
      | some cerr => (some { sb with Bids := [] }, [some cerr])
      | none =>
        let acc := sb.Bids.foldl
          (fun acc bid =>
            match validateBid bid with
            | (true, _) => (acc.1 ++ [bid], acc.2)
            | (false, berr) => (acc.1, acc.2 ++ [berr]))
          ([], [])
        (some { sb with Bids := acc.1 }, acc.2)

/-- `(*validatedBidder).RequestBid`: the wrapped bidder is a function of the
same interface shape (context, request, name, adjustment, conversions); the
context, bidder-name and conversions types are opaque parameters since the
decorator only threads them through. -/
def validatedBidder.RequestBid {Ctx BidderName Conversions : Type}
    (parseISO : String → Except String String)
    (bidder : Ctx → Openrtb.BidRequest → BidderName → ℚ → Conversions →
      Option PBSOrtbSeatBid × List GoErr)
    (ctx : Ctx) (request : Openrtb.BidRequest) (name : BidderName)
    (bidAdjustment : ℚ) (conversions : Conversions) :
    Option PBSOrtbSeatBid × List GoErr :=
  let res := bidder ctx request name bidAdjustment conversions
  let sanitized := removeInvalidBids parseISO request res.1
  if sanitized.2.length > 0 then
    (sanitized.1, res.2 ++ sanitized.2)
  else
    (sanitized.1, res.2)

/-- A concrete stand-in for `currency.ParseISO`, recognising the two codes the
concrete examples use, with the library's case-insensitive normalisation. -/
def parseISOSample : String → Except String String :=
  fun s =>
    if stringsToUpper s = "USD" then .ok "USD"
    else if stringsToUpper s = "EUR" then .ok "EUR"
    else .error "currency: tag is not well-formed"

/-- The accumulating loop of `removeInvalidBids`, characterised: valid bids are
appended in order, failing bids contribute their errors in order. -/
lemma removeInvalidBids_foldl (l : List PBSOrtbBid) (vb : List PBSOrtbBid)
    (es : List GoErr) :
    l.foldl
      (fun acc bid =>
        match validateBid bid with
        | (true, _) => (acc.1 ++ [bid], acc.2)
        | (false, berr) => (acc.1, acc.2 ++ [berr]))
      (vb, es) =
    (vb ++ l.filter (fun bid => (validateBid bid).1),
      es ++ (l.filter (fun bid => !(validateBid bid).1)).map
        (fun bid => (validateBid bid).2)) := by
  induction l generalizing vb es with
  | nil => simp
  | cons hd tl ih =>
    cases h : validateBid hd with
    | mk ok err =>
      cases ok
      · simp [List.filter_cons, h, ih]
      · simp [List.filter_cons, h, ih]

/-- `validateBid` succeeds exactly on bids with a present payload, non-empty
id, non-empty impression id, positive price and non-empty creative id. -/
lemma validateBid_fst_true_iff (p : PBSOrtbBid) :
    (validateBid p).1 = true ↔
      ∃ b, p.Bid = some b ∧ b.ID ≠ "" ∧ b.ImpID ≠ "" ∧ 0 < b.Price ∧
        b.CrID ≠ "" := by
  cases hp : p.Bid with
  | none => simp [validateBid, hp]
  | some b =>
    simp only [validateBid, hp, Option.some.injEq]
    by_cases h1 : b.ID = ""
    · simp [h1]
    · by_cases h2 : b.ImpID = ""
      · simp [h1, h2]
      · by_cases h3 : b.Price ≤ 0
        · simp [h1, h2, h3, not_lt.mpr h3]
        · by_cases h4 : b.CrID = ""
          · simp [h1, h2, h3, h4]
          · simp [h1, h2, h3, h4, not_le.mp h3]

/-- `removeInvalidBids` on a seat bid whose currency check passes: the new bid
list is the filter of the old one, and the errors are the failing bids' errors. -/
lemma removeInvalidBids_currency_ok (parseISO : String → Except String String)
    (request : Openrtb.BidRequest) (sb : PBSOrtbSeatBid)
    (hcur : validateCurrency parseISO request.Cur sb.Currency = none) :
    removeInvalidBids parseISO request (some sb) =
      (some { sb with Bids := sb.Bids.filter (fun bid => (validateBid bid).1) },
        (sb.Bids.filter (fun bid => !(validateBid bid).1)).map
          (fun bid => (validateBid bid).2)) := by
  obtain ⟨bids, cur⟩ := sb
  cases bids with
  | nil => simp [removeInvalidBids]
  | cons hd tl =>
    simp only [removeInvalidBids]
    rw [if_neg (by simp), hcur]
    simp only [removeInvalidBids_foldl]
    simp

/-- Filtering a list by a predicate and by its negation partitions its length. -/
lemma length_filter_add_length_filter_not {α : Type} (p : α → Bool)
    (l : List α) :
    (l.filter p).length + (l.filter (fun a => !(p a))).length = l.length := by
  induction l with
  | nil => rfl
  | cons hd tl ih =>
    by_cases h : p hd <;> simp [List.filter_cons, h, ← ih] <;> omega

/-- C1: after `removeInvalidBids` returns, every bid remaining in the seat
bid's bid list has a non-nil inner bid payload, a non-empty identifier, a
non-empty impression identifier, a price strictly greater than 0, and a
non-empty creative identifier. -/
theorem removeInvalidBids_survivors_valid
    (parseISO : String → Except String String) (request : Openrtb.BidRequest)
    (seatBid : Option PBSOrtbSeatBid) (sb : PBSOrtbSeatBid)
    (hsb : (removeInvalidBids parseISO request seatBid).1 = some sb)
    (p : PBSOrtbBid) (hp : p ∈ sb.Bids) :
    ∃ b, p.Bid = some b ∧ b.ID ≠ "" ∧ b.ImpID ≠ "" ∧ 0 < b.Price ∧
      b.CrID ≠ "" := by
  cases seatBid with
  | none => simp [removeInvalidBids] at hsb
  | some sb0 =>
    by_cases hb : sb0.Bids.length = 0
    · simp only [removeInvalidBids, if_pos hb, Option.some.injEq] at hsb
      subst hsb
      rw [List.length_eq_zero] at hb
      rw [hb] at hp
      simp at hp
    · cases hcur : validateCurrency parseISO request.Cur sb0.Currency with
      | some cerr =>
        simp only [removeInvalidBids, if_neg hb, hcur,
          Option.some.injEq] at hsb
        subst hsb
        simp at hp
      | none =>
        rw [removeInvalidBids_currency_ok parseISO request sb0 hcur] at hsb
        simp only [Option.some.injEq] at hsb
        subst hsb
        simp only [List.mem_filter] at hp
        exact (validateBid_fst_true_iff p).mp hp.2

/-- C2: when the bid list is non-empty and the currency check fails,
`removeInvalidBids` empties the bid list and returns exactly the one currency
error, independently of the individual bids. -/
theorem removeInvalidBids_currency_gate
    (parseISO : String → Except String String) (request : Openrtb.BidRequest)
    (sb : PBSOrtbSeatBid) (m : String)
    (hne : sb.Bids ≠ [])
    (hcur : validateCurrency parseISO request.Cur sb.Currency = some m) :
    removeInvalidBids parseISO request (some sb) =
      (some { sb with Bids := [] }, [some m]) := by
  simp only [removeInvalidBids]
  rw [if_neg (by simpa [List.length_eq_zero] using hne), hcur]

/-- C3: when the bid list is non-empty and the currency check passes, the
sanitized bid list is exactly the in-order subsequence of input bids accepted
by `validateBid`, the error list carries one error per failing bid, and
surviving bids plus errors account for every input bid. -/
theorem removeInvalidBids_field_filtering
    (parseISO : String → Except String String) (request : Openrtb.BidRequest)
    (sb : PBSOrtbSeatBid)
    (hne : sb.Bids ≠ [])
    (hcur : validateCurrency parseISO request.Cur sb.Currency = none) :
    (removeInvalidBids parseISO request (some sb)).1 =
      some { sb with Bids := sb.Bids.filter (fun bid => (validateBid bid).1) } ∧
    (removeInvalidBids parseISO request (some sb)).2 =
      (sb.Bids.filter (fun bid => !(validateBid bid).1)).map
        (fun bid => (validateBid bid).2) ∧
    (sb.Bids.filter (fun bid => (validateBid bid).1)).length +
      (removeInvalidBids parseISO request (some sb)).2.length =
      sb.Bids.length := by
  rw [removeInvalidBids_currency_ok parseISO request sb hcur]
  refine ⟨rfl, rfl, ?_⟩
  simp only [List.length_map]
  exact length_filter_add_length_filter_not (fun bid => (validateBid bid).1)
    sb.Bids

/-- C4: `validateBid` applies its five checks in a fixed priority order and
reports only the first failing check; a bid passing all five is accepted. -/
theorem validateBid_first_failure_wins :
    (∀ p : PBSOrtbBid, p.Bid = none →
      validateBid p = (false, some "Empty bid object submitted.")) ∧
    (∀ (p : PBSOrtbBid) (b : Openrtb.Bid), p.Bid = some b → b.ID = "" →
      validateBid p = (false, some "Bid missing required field 'id'")) ∧
    (∀ (p : PBSOrtbBid) (b : Openrtb.Bid), p.Bid = some b → b.ID ≠ "" →
      b.ImpID = "" →
      validateBid p =
        (false, some ("Bid \"" ++ b.ID ++ "\" missing required field 'impid'"))) ∧
    (∀ (p : PBSOrtbBid) (b : Openrtb.Bid), p.Bid = some b → b.ID ≠ "" →
      b.ImpID ≠ "" → b.Price ≤ 0 →
      validateBid p =
        (false, some ("Bid \"" ++ b.ID ++ "\" does not contain a positive 'price'"))) ∧
    (∀ (p : PBSOrtbBid) (b : Openrtb.Bid), p.Bid = some b → b.ID ≠ "" →
      b.ImpID ≠ "" → 0 < b.Price → b.CrID = "" →
      validateBid p = (false, some ("Bid \"" ++ b.ID ++ "\" missing creative ID"))) ∧
    (∀ (p : PBSOrtbBid) (b : Openrtb.Bid), p.Bid = some b → b.ID ≠ "" →
      b.ImpID ≠ "" → 0 < b.Price → b.CrID ≠ "" →
      validateBid p = (true, none)) :=
  ⟨fun p hp => by simp [validateBid, hp],
   fun p b hp h1 => by simp [validateBid, hp, h1],
   fun p b hp h1 h2 => by simp [validateBid, hp, h1, h2],
   fun p b hp h1 h2 h3 => by simp [validateBid, hp, h1, h2, h3],
   fun p b hp h1 h2 h3 h4 => by
     simp [validateBid, hp, h1, h2, not_le.mpr h3, h4],
   fun p b hp h1 h2 h3 h4 => by
     simp [validateBid, hp, h1, h2, not_le.mpr h3, h4]⟩

/-- Witness for C4 at concrete bids: a bid with both an empty id and a
non-positive price reports only the missing-id error, and a fully valid bid is
accepted. -/
theorem validateBid_first_failure_wins_witness :
    validateBid ⟨some ⟨"", "imp", -1, "cr"⟩⟩ =
      (false, some "Bid missing required field 'id'") ∧
    validateBid ⟨some ⟨"b1", "imp1", 2, "c1"⟩⟩ = (true, none) :=
  ⟨validateBid_first_failure_wins.2.1 ⟨some ⟨"", "imp", -1, "cr"⟩⟩
      ⟨"", "imp", -1, "cr"⟩ rfl rfl,
   validateBid_first_failure_wins.2.2.2.2.2 ⟨some ⟨"b1", "imp1", 2, "c1"⟩⟩
      ⟨"b1", "imp1", 2, "c1"⟩ rfl (by decide) (by decide) (by decide)
      (by decide)⟩

/-- A fully valid concrete bid. -/
def goodBid : PBSOrtbBid := ⟨some ⟨"b1", "imp1", 2, "c1"⟩⟩

/-- A concrete bid failing the positive-price check. -/
def zeroPriceBid : PBSOrtbBid := ⟨some ⟨"b2", "imp2", 0, "c2"⟩⟩

/-- A concrete request accepting only USD. -/
def requestUSD : Openrtb.BidRequest := ⟨["USD"]⟩

/-- A concrete seat bid with no declared currency, one valid and one invalid
bid. -/
def seatMixed : PBSOrtbSeatBid := ⟨[goodBid, zeroPriceBid], ""⟩

/-- A concrete seat bid declaring EUR. -/
def seatEUR : PBSOrtbSeatBid := ⟨[goodBid], "EUR"⟩

/-- Witness for C1: the surviving bid of the concrete mixed seat bid satisfies
all field invariants. -/
theorem removeInvalidBids_survivors_valid_witness :
    ∃ b, goodBid.Bid = some b ∧ b.ID ≠ "" ∧ b.ImpID ≠ "" ∧ 0 < b.Price ∧
      b.CrID ≠ "" :=
  removeInvalidBids_survivors_valid parseISOSample requestUSD (some seatMixed)
    ⟨[goodBid], ""⟩ (by decide) goodBid (by decide)

/-- Witness for C2: a USD-only request rejects an EUR seat bid wholesale with
the single currency error. -/
theorem removeInvalidBids_currency_gate_witness :
    removeInvalidBids parseISOSample requestUSD (some seatEUR) =
      (some { seatEUR with Bids := [] },
        [some "Bid currency is not allowed. Was 'EUR', wants: ['USD']"]) :=
  removeInvalidBids_currency_gate parseISOSample requestUSD seatEUR
    "Bid currency is not allowed. Was 'EUR', wants: ['USD']" (by decide)
    (by decide)

/-- Witness for C3: on the concrete mixed seat bid the valid bid survives, the
invalid one turns into one error, and the counts add up. -/
theorem removeInvalidBids_field_filtering_witness :
    (removeInvalidBids parseISOSample requestUSD (some seatMixed)).1 =
      some { seatMixed with
        Bids := seatMixed.Bids.filter (fun bid => (validateBid bid).1) } ∧
    (removeInvalidBids parseISOSample requestUSD (some seatMixed)).2 =
      (seatMixed.Bids.filter (fun bid => !(validateBid bid).1)).map
        (fun bid => (validateBid bid).2) ∧
    (seatMixed.Bids.filter (fun bid => (validateBid bid).1)).length +
      (removeInvalidBids parseISOSample requestUSD (some seatMixed)).2.length =
      seatMixed.Bids.length :=
  removeInvalidBids_field_filtering parseISOSample requestUSD seatMixed
    (by decide) (by decide)

/-- C5: the decorator returns the sanitized seat bid of the wrapped call
together with the wrapped call's errors followed by the sanitizer's errors,
and nothing else. -/
theorem RequestBid_decorates {Ctx BidderName Conversions : Type}
    (parseISO : String → Except String String)
    (bidder : Ctx → Openrtb.BidRequest → BidderName → ℚ → Conversions →
      Option PBSOrtbSeatBid × List GoErr)
    (ctx : Ctx) (request : Openrtb.BidRequest) (name : BidderName)
    (bidAdjustment : ℚ) (conversions : Conversions) :
    validatedBidder.RequestBid parseISO bidder ctx request name bidAdjustment
      conversions =
    ((removeInvalidBids parseISO request
        (bidder ctx request name bidAdjustment conversions).1).1,
      (bidder ctx request name bidAdjustment conversions).2 ++
        (removeInvalidBids parseISO request
          (bidder ctx request name bidAdjustment conversions).1).2) := by
  simp only [validatedBidder.RequestBid]
  by_cases h : (removeInvalidBids parseISO request
      (bidder ctx request name bidAdjustment conversions).1).2.length > 0
  · rw [if_pos h]
  · rw [if_neg h]
    have hnil : (removeInvalidBids parseISO request
        (bidder ctx request name bidAdjustment conversions).1).2 = [] :=
      List.length_eq_zero.mp (by omega)
    rw [hnil, List.append_nil]

/-- C6: an empty declared currency is replaced by the default "USD" before
parsing, an empty accepted list is replaced by ["USD"] before comparison, and
consequently an empty accepted list passes with a declared currency of "" or
"USD" (whenever the external parser recognises "USD"). -/
theorem validateCurrency_defaults (parseISO : String → Except String String) :
    (∀ cur : List String,
      validateCurrency parseISO cur "" = validateCurrency parseISO cur "USD") ∧
    (∀ bc : String,
      validateCurrency parseISO [] bc = validateCurrency parseISO ["USD"] bc) ∧
    (parseISO "USD" = .ok "USD" →
      validateCurrency parseISO [] "" = none ∧
      validateCurrency parseISO [] "USD" = none) := by
  have hU : stringsToUpper "USD" = "USD" := by decide
  refine ⟨fun cur => ?_, fun bc => ?_, fun h => ?_⟩
  · simp [validateCurrency]
  · cases hbc : parseISO (if bc = "" then "USD" else bc) with
    | error e => simp [validateCurrency, hbc]
    | ok code => simp [validateCurrency, hbc]
  · constructor <;> simp [validateCurrency, h, hU]

/-- Witness for C6: with the sample parser, an empty accepted list accepts an
empty or "USD" declared currency. -/
theorem validateCurrency_defaults_witness :
    validateCurrency parseISOSample [] "" = none ∧
    validateCurrency parseISOSample [] "USD" = none :=
  (validateCurrency_defaults parseISOSample).2.2 rfl

/-- C7: each validation error carries exactly the specified message text: the
currency rejection names the normalised code and the single-quoted,
comma-separated accepted list, and each `validateBid` failure uses its fixed
text with the offending bid's identifier interpolated. -/
theorem validation_error_messages :
    (∀ (parseISO : String → Except String String) (cur : List String)
        (bc m code : String),
      parseISO (if bc = "" then "USD" else bc) = .ok code →
      validateCurrency parseISO cur bc = some m →
      m = "Bid currency is not allowed. Was '" ++ code ++ "', wants: ['" ++
        String.intercalate "', '" (if cur.length = 0 then ["USD"] else cur) ++
        "']") ∧
    (∀ (p : PBSOrtbBid) (m : String), p.Bid = none →
      (validateBid p).2 = some m → m = "Empty bid object submitted.") ∧
    (∀ (p : PBSOrtbBid) (b : Openrtb.Bid) (m : String), p.Bid = some b →
      (validateBid p).2 = some m →
      m = "Bid missing required field 'id'" ∨
      m = "Bid \"" ++ b.ID ++ "\" missing required field 'impid'" ∨
      m = "Bid \"" ++ b.ID ++ "\" does not contain a positive 'price'" ∨
      m = "Bid \"" ++ b.ID ++ "\" missing creative ID") := by
  refine ⟨fun parseISO cur bc m code hok hval => ?_,
    fun p m hp hv => ?_, fun p b m hp hv => ?_⟩
  · simp only [validateCurrency, hok] at hval
    by_cases hlen : cur.length = 0
    · simp only [if_pos hlen] at hval ⊢
      split at hval
      · exact (Option.some_inj.mp hval).symm
      · exact Option.noConfusion hval
    · simp only [if_neg hlen] at hval ⊢
      split at hval
      · exact (Option.some_inj.mp hval).symm
      · exact Option.noConfusion hval
  · have hb : validateBid p = (false, some "Empty bid object submitted.") := by
      simp [validateBid, hp]
    rw [hb] at hv
    exact (Option.some_inj.mp hv).symm
  · by_cases h1 : b.ID = ""
    · left
      have hb : validateBid p =
          (false, some "Bid missing required field 'id'") := by
        simp [validateBid, hp, h1]
      rw [hb] at hv
      exact (Option.some_inj.mp hv).symm
    · by_cases h2 : b.ImpID = ""
      · right; left
        have hb : validateBid p =
            (false, some ("Bid \"" ++ b.ID ++ "\" missing required field 'impid'")) := by
          simp [validateBid, hp, h1, h2]
        rw [hb] at hv
        exact (Option.some_inj.mp hv).symm
      · by_cases h3 : b.Price ≤ 0
        · right; right; left
          have hb : validateBid p =
              (false, some ("Bid \"" ++ b.ID ++ "\" does not contain a positive 'price'")) := by
            simp [validateBid, hp, h1, h2, h3]
          rw [hb] at hv
          exact (Option.some_inj.mp hv).symm
        · by_cases h4 : b.CrID = ""
          · right; right; right
            have hb : validateBid p =
                (false, some ("Bid \"" ++ b.ID ++ "\" missing creative ID")) := by
              simp [validateBid, hp, h1, h2, h3, h4]
            rw [hb] at hv
            exact (Option.some_inj.mp hv).symm
          · have hb : validateBid p = (true, none) := by
              simp [validateBid, hp, h1, h2, h3, h4]
            rw [hb] at hv
            exact Option.noConfusion hv

/-- Witness for C7: the empty-bid failure carries its exact message text. -/
theorem validation_error_messages_witness :
    "Empty bid object submitted." = "Empty bid object submitted." :=
  validation_error_messages.2.1 ⟨none⟩ "Empty bid object submitted." rfl rfl

/-- C8: a nil seat bid or an empty bid list makes `removeInvalidBids` a no-op
returning no errors, with the currency never consulted (the result does not
depend on the parser, the request or the declared currency). -/
theorem removeInvalidBids_noop :
    (∀ (parseISO : String → Except String String)
        (request : Openrtb.BidRequest),
      removeInvalidBids parseISO request none = (none, [])) ∧
    (∀ (parseISO : String → Except String String)
        (request : Openrtb.BidRequest) (sb : PBSOrtbSeatBid), sb.Bids = [] →
      removeInvalidBids parseISO request (some sb) = (some sb, [])) := by
  refine ⟨fun _ _ => rfl, fun parseISO request sb h => ?_⟩
  simp [removeInvalidBids, h]

/-- Witness for C8: a bid-less seat bid with an unparseable currency passes
through unchanged with no errors. -/
theorem removeInvalidBids_noop_witness :
    removeInvalidBids parseISOSample requestUSD (some ⟨[], "JPY"⟩) =
      (some ⟨[], "JPY"⟩, []) :=
  removeInvalidBids_noop.2 parseISOSample requestUSD ⟨[], "JPY"⟩ rfl

/-- C9: sanitization only rewrites the bid-list field: the result is the input
seat bid with `Bids` replaced by an in-order sublist of the original bid
objects (bids are kept or dropped, never edited), so the declared currency and
every other modelled field are unchanged; the request is passed by value and
never returned, so it is unchanged by construction. -/
theorem removeInvalidBids_frame
    (parseISO : String → Except String String) (request : Openrtb.BidRequest)
    (sb : PBSOrtbSeatBid) :
    ∃ newBids : List PBSOrtbBid,
      newBids.Sublist sb.Bids ∧
      (removeInvalidBids parseISO request (some sb)).1 =
        some { sb with Bids := newBids } := by
  by_cases hb : sb.Bids.length = 0
  · refine ⟨sb.Bids, List.Sublist.refl _, ?_⟩
    simp only [removeInvalidBids, if_pos hb]
  · cases hcur : validateCurrency parseISO request.Cur sb.Currency with
    | some cerr =>
      refine ⟨[], List.nil_sublist _, ?_⟩
      simp only [removeInvalidBids, if_neg hb, hcur]
    | none =>
      refine ⟨sb.Bids.filter (fun bid => (validateBid bid).1),
        List.filter_sublist sb.Bids, ?_⟩
      rw [removeInvalidBids_currency_ok parseISO request sb hcur]

/-- C10: the pointer-level call of `validateBid` is defined exactly on non-nil
bid pointers; a nil element is outside the domain (no result at all), not an
"Empty bid object submitted." report, while every non-nil pointer gets the
field validator's result. -/
theorem validateBid_requires_nonnil_pointer :
    validateBidCall none = none ∧
    (∀ p : PBSOrtbBid, validateBidCall (some p) = some (validateBid p)) ∧
    (∀ e : GoErr, validateBidCall none ≠ some (false, e)) :=
  ⟨rfl, fun _ => rfl, fun e h => by simp [validateBidCall] at h⟩

/-- Witness for C10: the nil-payload (but non-nil pointer) bid is inside the
domain and reported as an empty bid object. -/
theorem validateBid_requires_nonnil_pointer_witness :
    validateBidCall (some ⟨none⟩) = some (validateBid ⟨none⟩) :=
  validateBid_requires_nonnil_pointer.2.1 ⟨none⟩
